import Mathlib

/-!
Shallow embedding of the page behavior controller of the lauraganthony.com
site (themes/laura-theme/static/js/main.js), together with proofs about its
mobile navigation, scroll-reactive header, form validation, logo carousel
and modal dialog behavior.
-/

namespace LauraSite

/-! Helpers mirroring the JavaScript primitives the controller uses. -/

/-- Result of the JavaScript expression `(b).toString()` for a boolean `b`. -/
def boolToString (b : Bool) : String := if b then "true" else "false"

/-- Characters matched by the whitespace class of JavaScript regular
expressions and stripped by `String.prototype.trim`. -/
def isJsSpace (c : Char) : Bool :=
  c = ' ' || c = '\t' || c = '\n' || c = '\x0b' || c = '\x0c' || c = '\r' ||
  c = '\u00A0' || c = '\u1680' ||
  (0x2000 ≤ c.toNat && c.toNat ≤ 0x200A) ||
  c = '\u2028' || c = '\u2029' || c = '\u202F' || c = '\u205F' ||
  c = '\u3000' || c = '\uFEFF'

/-- The JavaScript expression `s.trim()`. -/
def jsTrim (s : String) : String :=
  String.mk (((s.toList.dropWhile isJsSpace).reverse.dropWhile isJsSpace).reverse)

/-- Whole-string test of the regular expression used by `validateField`
(one or more characters that are neither whitespace nor an at sign, an at
sign, one or more such characters, a literal dot, one or more such
characters).  The at-sign split is exact because the character class
excludes the at sign itself; the dot in the domain may sit at any interior
position because the class allows dots. -/
def emailRegexTest (s : String) : Bool :=
  match s.toList.splitOn '@' with
  | [localPart, domainPart] =>
      !localPart.isEmpty && localPart.all (fun c => !(isJsSpace c)) &&
      !domainPart.isEmpty && domainPart.all (fun c => !(isJsSpace c)) &&
      ((domainPart.drop 1).dropLast.contains '.')
  | _ => false

/-! Mobile navigation (setupMobileNavigation, toggleMobileMenu,
closeMobileMenu).  The state mirrors the module flag `isMenuOpen`, the
`aria-expanded` attribute of the toggle, the `nav-menu--open` class of the
menu and which element the nav code focused last.  `hasNavLink` records
whether `navMenu.querySelector` finds a first menu item; it never changes. -/

/-- Elements the navigation code can move keyboard focus to. -/
inductive NavFocus where
  | firstMenuItem
  | toggleControl
deriving DecidableEq, Repr

/-- State touched by the mobile navigation feature. -/
structure NavState where
  isMenuOpen : Bool
  ariaExpanded : String
  menuOpenClass : Bool
  focusTarget : Option NavFocus
  hasNavLink : Bool
deriving DecidableEq, Repr

/-- Modelled from the spec: the page markup holding the toggle's initial
aria-expanded attribute is not under src; the data model records the
navigation state as created closed at page load, so the exposed state
starts collapsed, matching the module flag initialized to false in the
source. -/
def initNavState (hasNavLink : Bool) : NavState :=
  { isMenuOpen := false
    ariaExpanded := "false"
    menuOpenClass := false
    focusTarget := none
    hasNavLink := hasNavLink }

/-- The `toggleMobileMenu` handler: flip the flag, write the flag into
`aria-expanded`, add or remove the menu class, and on opening focus the
first menu item when one exists. -/
def toggleMobileMenu (s : NavState) : NavState :=
  let opened := !s.isMenuOpen
  let s1 := { s with isMenuOpen := opened, ariaExpanded := boolToString opened }
  if opened then
    { s1 with menuOpenClass := true
              focusTarget := if s1.hasNavLink then some NavFocus.firstMenuItem
                             else s1.focusTarget }
  else
    { s1 with menuOpenClass := false }

/-- The `closeMobileMenu` helper: clear the flag, write the literal string
`false` into `aria-expanded`, remove the menu class. -/
def closeMobileMenu (s : NavState) : NavState :=
  { s with isMenuOpen := false, ariaExpanded := "false", menuOpenClass := false }

/-- Events the mobile navigation listeners react to.  A document click
carries whether its target lies inside the navigation container. -/
inductive NavEvent where
  | toggleActivate
  | documentClick (insideNavigation : Bool)
  | keydown (key : String)
  | resize (width : Nat)
deriving DecidableEq, Repr

/-- One event dispatch through the listeners installed by
`setupMobileNavigation`, with every required element present. -/
def navStep (s : NavState) (e : NavEvent) : NavState :=
  match e with
  | NavEvent.toggleActivate => toggleMobileMenu s
  | NavEvent.documentClick inside =>
      if s.isMenuOpen && !inside then closeMobileMenu s else s
  | NavEvent.keydown key =>
      if key == "Escape" && s.isMenuOpen then
        { closeMobileMenu s with focusTarget := some NavFocus.toggleControl }
      else s
  | NavEvent.resize width =>
      if 768 ≤ width && s.isMenuOpen then closeMobileMenu s else s

/-- A whole sequence of navigation events starting from the load state. -/
def runNav (hasNavLink : Bool) (evs : List NavEvent) : NavState :=
  evs.foldl navStep (initNavState hasNavLink)

/-- One navigation event preserves agreement between the flag and the
exposed attribute. -/
lemma navStep_aria (s : NavState) (e : NavEvent)
    (h : s.ariaExpanded = boolToString s.isMenuOpen) :
    (navStep s e).ariaExpanded = boolToString (navStep s e).isMenuOpen := by
  cases e with
  | toggleActivate =>
      simp only [navStep, toggleMobileMenu]
      split <;> rfl
  | documentClick inside =>
      simp only [navStep]
      split
      · rfl
      · exact h
  | keydown key =>
      simp only [navStep]
      split
      · rfl
      · exact h
  | resize width =>
      simp only [navStep]
      split
      · rfl
      · exact h

lemma foldl_navStep_aria (evs : List NavEvent) (s : NavState)
    (h : s.ariaExpanded = boolToString s.isMenuOpen) :
    (evs.foldl navStep s).ariaExpanded
      = boolToString (evs.foldl navStep s).isMenuOpen := by
  induction evs generalizing s with
  | nil => simpa using h
  | cons e rest ih =>
      simpa using ih (navStep s e) (navStep_aria s e h)

/-- Claim C1: after every sequence of toggle activations, document clicks,
key presses and resizes handled by the mobile navigation listeners, the
`aria-expanded` state exposed on the toggle equals the string form of the
internal `isMenuOpen` flag: every code path that changes one changes the
other in the same handler. -/
theorem navigation_aria_matches_flag (hasNavLink : Bool) (evs : List NavEvent) :
    (runNav hasNavLink evs).ariaExpanded
      = boolToString (runNav hasNavLink evs).isMenuOpen := by
  exact foldl_navStep_aria evs (initNavState hasNavLink) rfl

/-! Scroll-reactive header (setupScrollBehavior, updateNavigation).  One
animation-frame update reads the current scroll offset and the hero height,
decides the hidden class, and records the offset for the next frame. -/

/-- State carried between sampled animation frames: the module variable
`lastScrollY` and whether the navigation currently carries the `hidden`
class. -/
structure ScrollState where
  lastScrollY : Nat
  navHidden : Bool
deriving DecidableEq, Repr

/-- The `updateNavigation` frame callback: add the `hidden` class exactly
when the current offset exceeds the hero height and exceeds the previously
sampled offset, otherwise remove it; then record the current offset. -/
def updateNavigation (currentScrollY heroHeight : Nat) (s : ScrollState) : ScrollState :=
  let navHidden :=
    if currentScrollY > heroHeight && currentScrollY > s.lastScrollY then true
    else false
  { lastScrollY := currentScrollY, navHidden := navHidden }

/-- Claim C4: a sampled frame hides the header exactly when the current
offset exceeds the hero height and increased since the previously sampled
frame; every other frame (in particular every offset at or below the hero
height and every non-increasing frame) removes the hidden state, and the
frame records the current offset as the new last offset. -/
theorem updateNavigation_policy (currentScrollY heroHeight : Nat) (s : ScrollState) :
    ((updateNavigation currentScrollY heroHeight s).navHidden = true
      ↔ heroHeight < currentScrollY ∧ s.lastScrollY < currentScrollY)
    ∧ (updateNavigation currentScrollY heroHeight s).lastScrollY = currentScrollY := by
  constructor
  · simp [updateNavigation, Nat.lt_iff_add_one_le, decide_eq_true_eq]
  · rfl

/-! Modal dialog (setupModal, openModal, closeModal) and its embedded
subscription form.  The three opener controls are the elements with ids
contactModalTrigger, leadMagnetTrigger and contactTrigger. -/

/-- The designated opener controls of the contact modal. -/
inductive Trigger where
  | contactModalTrigger
  | leadMagnetTrigger
  | contactTrigger
deriving DecidableEq, Repr

/-- Elements the modal code can move keyboard focus to.  The first input
receives focus through a short deferral after opening; the model applies it
while the modal is open. -/
inductive ModalFocus where
  | firstInput
  | opener (t : Trigger)
deriving DecidableEq, Repr

/-- State touched by the modal feature: the display style and
`aria-hidden` attribute of the modal, the body overflow lock, the recorded
opener, the focused element and the list of windows opened so far. -/
structure ModalState where
  displayFlex : Bool
  ariaHidden : String
  bodyOverflowHidden : Bool
  activeModalTrigger : Option Trigger
  focused : Option ModalFocus
  hasInput : Bool
  openedWindows : List String
deriving DecidableEq, Repr

/-- The `openModal` helper: record the opener, show the modal, lock body
scrolling, and (after a short deferral) focus the first input when one
exists. -/
def openModal (triggerElement : Trigger) (s : ModalState) : ModalState :=
  let s1 := { s with activeModalTrigger := some triggerElement
                     displayFlex := true
                     ariaHidden := "false"
                     bodyOverflowHidden := true }
  if s1.hasInput then { s1 with focused := some ModalFocus.firstInput } else s1

/-- The `closeModal` helper: hide the modal, unlock body scrolling, and
when an opener is recorded, focus it and clear the record. -/
def closeModal (s : ModalState) : ModalState :=
  let s1 := { s with displayFlex := false
                     ariaHidden := "true"
                     bodyOverflowHidden := false }
  match s1.activeModalTrigger with
  | some t => { s1 with focused := some (ModalFocus.opener t), activeModalTrigger := none }
  | none => s1

/-- Events the modal listeners react to: activating one of the opener
controls, clicking the close control, clicking the overlay, and the Escape
key (which closes only while the modal is displayed). -/
inductive ModalEvent where
  | openVia (t : Trigger)
  | closeClick
  | overlayClick
  | escapeKey
deriving DecidableEq, Repr

/-- One event dispatch through the listeners installed by `setupModal`. -/
def modalStep (s : ModalState) (e : ModalEvent) : ModalState :=
  match e with
  | ModalEvent.openVia t => openModal t s
  | ModalEvent.closeClick => closeModal s
  | ModalEvent.overlayClick => closeModal s
  | ModalEvent.escapeKey => if s.displayFlex then closeModal s else s

/-- Modelled from the spec: the page markup holding the modal's initial
style and aria-hidden attribute is not under src; the state machine starts
in its CLOSED state with no opener recorded, matching the module variable
initialized to null in the source. -/
def initModalState (hasInput : Bool) : ModalState :=
  { displayFlex := false
    ariaHidden := "true"
    bodyOverflowHidden := false
    activeModalTrigger := none
    focused := none
    hasInput := hasInput
    openedWindows := [] }

/-- A whole sequence of modal events starting from the load state. -/
def runModal (hasInput : Bool) (evs : List ModalEvent) : ModalState :=
  evs.foldl modalStep (initModalState hasInput)

/-- Claim C5: after any history of opens and closes, a close following an
open via control `t` focuses exactly `t` (not any opener used earlier in
the history) and leaves no recorded opener; moreover every close clears the
recorded opener, whichever close path runs. -/
theorem closeModal_restores_latest_opener :
    (∀ (hasInput : Bool) (evs : List ModalEvent) (t : Trigger) (e : ModalEvent),
       e = ModalEvent.closeClick ∨ e = ModalEvent.overlayClick ∨ e = ModalEvent.escapeKey →
       (runModal hasInput (evs ++ [ModalEvent.openVia t, e])).focused
           = some (ModalFocus.opener t)
        ∧ (runModal hasInput (evs ++ [ModalEvent.openVia t, e])).activeModalTrigger = none)
    ∧ (∀ s : ModalState, (closeModal s).activeModalTrigger = none) := by
  constructor
  · intro hasInput evs t e he
    have hrun : runModal hasInput (evs ++ [ModalEvent.openVia t, e])
        = modalStep (modalStep (runModal hasInput evs) (ModalEvent.openVia t)) e := by
      simp [runModal, List.foldl_append]
    have hopen : (modalStep (runModal hasInput evs) (ModalEvent.openVia t)).activeModalTrigger
        = some t := by
      simp only [modalStep, openModal]
      split <;> rfl
    have hflex : (modalStep (runModal hasInput evs) (ModalEvent.openVia t)).displayFlex
        = true := by
      simp only [modalStep, openModal]
      split <;> rfl
    set s1 := modalStep (runModal hasInput evs) (ModalEvent.openVia t) with hs1
    have hclose : (closeModal s1).focused = some (ModalFocus.opener t)
        ∧ (closeModal s1).activeModalTrigger = none := by
      simp [closeModal, hopen]
    rcases he with he | he | he <;> subst he
    · simpa [hrun, modalStep] using hclose
    · simpa [hrun, modalStep] using hclose
    · simpa [hrun, modalStep, hflex] using hclose
  · intro s
    simp only [closeModal]
    rcases h : s.activeModalTrigger with _ | t <;> simp [h]

/-- Closed instance of the opener-restoration theorem: open via the lead
magnet trigger, open again via the contact trigger, close with Escape; the
contact trigger gets focus back and the record is clear. -/
theorem closeModal_restores_latest_opener_witness :
    ((ModalEvent.escapeKey = ModalEvent.closeClick
        ∨ ModalEvent.escapeKey = ModalEvent.overlayClick
        ∨ ModalEvent.escapeKey = ModalEvent.escapeKey)
      ∧ ((runModal true ([ModalEvent.openVia Trigger.leadMagnetTrigger]
              ++ [ModalEvent.openVia Trigger.contactTrigger, ModalEvent.escapeKey])).focused
            = some (ModalFocus.opener Trigger.contactTrigger)
         ∧ (runModal true ([ModalEvent.openVia Trigger.leadMagnetTrigger]
              ++ [ModalEvent.openVia Trigger.contactTrigger, ModalEvent.escapeKey])).activeModalTrigger
            = none)) :=
  ⟨Or.inr (Or.inr rfl),
   closeModal_restores_latest_opener.1 true [ModalEvent.openVia Trigger.leadMagnetTrigger]
     Trigger.contactTrigger ModalEvent.escapeKey (Or.inr (Or.inr rfl))⟩

/-! Submission of the embedded subscription form
(mc-embedded-subscribe-form).  The listener neither cancels the event nor
touches the page synchronously; it only schedules a deferred action that
opens the downloadable document in a new browsing context and then closes
the modal. -/

/-- Steps the deferred action of the subscription-form listener performs. -/
inductive Effect where
  | openWindow (url target : String)
  | closeModal
deriving DecidableEq, Repr

/-- Outcome of dispatching a submit event to the subscription-form
listener: whether the event was cancelled, the delay of the scheduled
timer in milliseconds, and the steps the timer runs in order. -/
structure SubmitOutcome where
  prevented : Bool
  delayMs : Nat
  deferred : List Effect
deriving DecidableEq, Repr

/-- Path of the downloadable document opened after submission. -/
def pdfPath : String := "/neuroinclusive-interview-tips.pdf"

/-- The submit listener of the embedded subscription form: let the native
submission proceed, and schedule (after 1000 ms) opening the document in a
new browsing context followed by closing the modal. -/
def mcFormSubmitHandler : SubmitOutcome :=
  { prevented := false
    delayMs := 1000
    deferred := [Effect.openWindow pdfPath "_blank", Effect.closeModal] }

/-- Interpretation of one deferred step on the modal state. -/
def applyEffect (s : ModalState) (e : Effect) : ModalState :=
  match e with
  | Effect.openWindow url _target => { s with openedWindows := s.openedWindows ++ [url] }
  | Effect.closeModal => closeModal s

/-- Interpretation of a list of deferred steps, in order. -/
def runEffects (s : ModalState) (es : List Effect) : ModalState :=
  es.foldl applyEffect s

/-- Claim C8: submitting the embedded subscription form is never
cancelled (the native submission proceeds to the external service), and
the single deferred action scheduled after the fixed 1000 ms delay first
opens the fixed document path in a new browsing context and then closes
the modal, in that order: on any state, running the deferred steps equals
closing the modal of the state in which the document window has already
been opened.  No step awaits any acknowledgment from the external
service. -/
theorem mcFormSubmit_not_cancelled_then_pdf_then_close :
    mcFormSubmitHandler.prevented = false
    ∧ mcFormSubmitHandler.delayMs = 1000
    ∧ mcFormSubmitHandler.deferred
        = [Effect.openWindow pdfPath "_blank", Effect.closeModal]
    ∧ ∀ s : ModalState,
        runEffects s mcFormSubmitHandler.deferred
          = closeModal { s with openedWindows := s.openedWindows ++ [pdfPath] } := by
  refine ⟨rfl, rfl, rfl, ?_⟩
  intro s
  rfl

/-! Logo carousel (setupLogoCarousel).  The track's child list is modelled
as a list; `cloneNode true` yields an element equal to the original.  The
source reads `logos.length` into `logoCount` before the loop, so the loop
bound is the child count at setup time even though the loop appends into
the same live child collection; iteration `i` clones the element at index
`i` of the current (grown) collection. -/

/-- The clone loop of `setupLogoCarousel`: read the child count, then for
each index below it append a clone of the child at that index of the live
collection. -/
def setupCarouselTrack {α : Type} [Inhabited α] (track : List α) : List α :=
  let logoCount := track.length
  (List.range logoCount).foldl (fun t i => t ++ [t.getD i default]) track

lemma cloneLoop_take {α : Type} [Inhabited α] (track : List α) (k : Nat)
    (hk : k ≤ track.length) :
    (List.range k).foldl (fun t i => t ++ [t.getD i default]) track
      = track ++ track.take k := by
  induction k with
  | zero => simp
  | succ n ih =>
      have hn : n ≤ track.length := Nat.le_of_succ_le hk
      have hlt : n < track.length := Nat.lt_of_succ_le hk
      rw [List.range_succ, List.foldl_append, ih hn]
      have hsome : track[n]? = some (track.getD n default) := by
        unfold List.getD
        rw [List.get?_eq_getElem?, List.getElem?_eq_getElem hlt]
        rfl
      have hget : (track ++ track.take n).getD n default = track.getD n default := by
        unfold List.getD
        rw [List.get?_eq_getElem?, List.get?_eq_getElem?,
          List.getElem?_append_left hlt]
      rw [List.foldl_cons, List.foldl_nil, hget]
      have htake : track.take (n + 1) = track.take n ++ [track.getD n default] := by
        rw [List.take_succ, hsome]
        rfl
      rw [htake, List.append_assoc]

/-- Claim C9: for a track with `n` children at setup time, the clone loop
terminates with the strip duplicated exactly once: the track ends with
`2 * n` children, its first `n` children are the original children
unchanged, and its last `n` children equal the first `n` in the same
order. -/
theorem setupCarouselTrack_duplicates {α : Type} [Inhabited α] (track : List α) :
    (setupCarouselTrack track).length = 2 * track.length
    ∧ (setupCarouselTrack track).take track.length = track
    ∧ (setupCarouselTrack track).drop track.length = track := by
  have hmain : setupCarouselTrack track = track ++ track := by
    unfold setupCarouselTrack
    rw [cloneLoop_take track track.length (Nat.le_refl _), List.take_length]
  refine ⟨?_, ?_, ?_⟩
  · rw [hmain, List.length_append]
    omega
  · rw [hmain, List.take_left]
  · rw [hmain, List.drop_left]

/-! Form validation (setupFormEnhancements, validateForm, validateField,
showFieldError, clearFieldError).  A field is modelled by its immutable
attributes (id, type, required, current value) together with the mutable
state the validation code touches (aria-invalid, inline border color,
aria-describedby).  The error-text elements created by showFieldError live
in a separate list keyed by their id attribute, in creation order;
document.getElementById returns the first element with a matching id, and
parentNode.appendChild records which field's parent received the element. -/

/-- The `type` attribute of a form control, as far as validateField
distinguishes it. -/
inductive FieldType where
  | email
  | text
  | textarea
deriving DecidableEq, Repr

/-- A form control: immutable attributes and the state validation
mutates. -/
structure Field where
  id : String
  fieldType : FieldType
  required : Bool
  value : String
  ariaInvalid : Bool
  borderColor : String
  describedBy : Option String
deriving DecidableEq, Repr

/-- An error-text element created by showFieldError: its id attribute, its
text content, and the index of the field whose parent node holds it. -/
structure ErrorElem where
  id : String
  text : String
  parentIndex : Nat
deriving DecidableEq, Repr

/-- The part of the document the validation code reads and writes. -/
structure FormDoc where
  fields : List Field
  errorElems : List ErrorElem
deriving DecidableEq, Repr

/-- Message shown for a required field left empty. -/
def requiredMessage : String := "This field is required."

/-- Message shown for an email field whose value fails the pattern. -/
def emailMessage : String := "Please enter a valid email address."

/-- Border color applied to an invalid field. -/
def calloutColor : String := "var(--color-callout)"

/-- The id under which a field's error element is keyed:
`field.id + "-error"`. -/
def errorIdOf (f : Field) : String := f.id ++ "-error"

/-- Lookup as by document.getElementById over the error elements: the first element
whose id matches. -/
def findErrorElem (es : List ErrorElem) (eid : String) : Option ErrorElem :=
  es.find? (fun e => e.id == eid)

/-- Setting `textContent` on the element `getElementById` returned: the
first element with the given id gets the new text. -/
def updateFirstErrorElem : List ErrorElem → String → String → List ErrorElem
  | [], _, _ => []
  | e :: rest, eid, message =>
      if e.id == eid then { e with text := message } :: rest
      else e :: updateFirstErrorElem rest eid message

/-- Calling `remove()` on the element `getElementById` returned: the first
element with the given id disappears. -/
def removeFirstErrorElem : List ErrorElem → String → List ErrorElem
  | [], _ => []
  | e :: rest, eid =>
      if e.id == eid then rest else e :: removeFirstErrorElem rest eid

/-- Number of error elements carrying a given id. -/
def countErrorElems (es : List ErrorElem) (eid : String) : Nat :=
  es.countP (fun e => e.id == eid)

/-- The `showFieldError` helper: mark the field invalid for assistive
technology, flag it visually, find or create the error element keyed by
`field.id + "-error"`, write the message into it, and link the field to it
through aria-describedby. -/
def showFieldError (doc : FormDoc) (fi : Nat) (message : String) : FormDoc :=
  match doc.fields[fi]? with
  | none => doc
  | some field =>
      let errorId := field.id ++ "-error"
      let newField := { field with ariaInvalid := true
                                   borderColor := calloutColor
                                   describedBy := some errorId }
      let newElems :=
        match findErrorElem doc.errorElems errorId with
        | some _ => updateFirstErrorElem doc.errorElems errorId message
        | none => doc.errorElems ++ [{ id := errorId, text := message, parentIndex := fi }]
      { fields := doc.fields.set fi newField, errorElems := newElems }

/-- The `clearFieldError` helper: drop the invalid mark, the inline border
color and the aria-describedby link, and remove the error element keyed by
`field.id + "-error"` when one exists. -/
def clearFieldError (doc : FormDoc) (fi : Nat) : FormDoc :=
  match doc.fields[fi]? with
  | none => doc
  | some field =>
      let errorId := field.id ++ "-error"
      let newField := { field with ariaInvalid := false
                                   borderColor := ""
                                   describedBy := none }
      let newElems :=
        match findErrorElem doc.errorElems errorId with
        | some _ => removeFirstErrorElem doc.errorElems errorId
        | none => doc.errorElems
      { fields := doc.fields.set fi newField, errorElems := newElems }

/-- Validity of one field under the rule chain of `validateField`: the
required check may set a failure with the required message, then the email
check (only on a non-empty value) may overwrite it with the email
failure. -/
def fieldPasses (f : Field) : Bool :=
  let value := jsTrim f.value
  let step1 : Bool × String :=
    if f.required && value == "" then (false, requiredMessage) else (true, "")
  let step2 : Bool × String :=
    if f.fieldType == FieldType.email && value != "" then
      (if !(emailRegexTest value) then (false, emailMessage) else step1)
    else step1
  step2.1

/-- The message the same rule chain leaves behind. -/
def fieldMessage (f : Field) : String :=
  let value := jsTrim f.value
  let step1 : Bool × String :=
    if f.required && value == "" then (false, requiredMessage) else (true, "")
  let step2 : Bool × String :=
    if f.fieldType == FieldType.email && value != "" then
      (if !(emailRegexTest value) then (false, emailMessage) else step1)
    else step1
  step2.2

/-- The `validateField` helper: trim the value, clear any previous error,
run the required check and then the email check (the latter only on a
non-empty value), and show the resulting message when some check failed;
return whether the field is valid. -/
def validateField (doc : FormDoc) (fi : Nat) : Bool × FormDoc :=
  match doc.fields[fi]? with
  | none => (true, doc)
  | some field =>
      let value := jsTrim field.value
      let doc1 := clearFieldError doc fi
      let step1 : Bool × String :=
        if field.required && value == "" then (false, requiredMessage) else (true, "")
      let step2 : Bool × String :=
        if field.fieldType == FieldType.email && value != "" then
          (if !(emailRegexTest value) then (false, emailMessage) else step1)
        else step1
      if !step2.1 then (step2.1, showFieldError doc1 fi step2.2)
      else (step2.1, doc1)

/-- Indices of the controls `querySelectorAll` with the required filter
returns, in document order, read once before the validation loop. -/
def requiredIndices (doc : FormDoc) : List Nat :=
  (List.range doc.fields.length).filter
    (fun i => ((doc.fields[i]?).map Field.required).getD false)

/-- The forEach loop of `validateForm`: validate each listed field (never
short-circuiting) while accumulating overall validity. -/
def runValidateFields (doc : FormDoc) (acc : Bool) : List Nat → Bool × FormDoc
  | [] => (acc, doc)
  | i :: rest =>
      let r := validateField doc i
      runValidateFields r.2 (acc && r.1) rest

/-- The `validateForm` helper: validate every required control. -/
def validateForm (doc : FormDoc) : Bool × FormDoc :=
  runValidateFields doc true (requiredIndices doc)

/-- Outcome of dispatching a submit event to the contact form listener. -/
structure SubmitStep where
  prevented : Bool
  doc : FormDoc
deriving DecidableEq, Repr

/-- The submit listener of the contact form: run `validateForm` and cancel
the event exactly when validation failed. -/
def contactFormSubmit (doc : FormDoc) : SubmitStep :=
  let r := validateForm doc
  { prevented := !r.1, doc := r.2 }

/-! Lemmas about the error-element primitives. -/

lemma findErrorElem_eq_none (es : List ErrorElem) (eid : String) :
    findErrorElem es eid = none ↔ countErrorElems es eid = 0 := by
  simp [findErrorElem, countErrorElems, List.find?_eq_none, List.countP_eq_zero]

lemma find_updateFirst_self (es : List ErrorElem) (eid m : String) :
    findErrorElem (updateFirstErrorElem es eid m) eid
      = (findErrorElem es eid).map (fun e => { e with text := m }) := by
  induction es with
  | nil => rfl
  | cons e rest ih =>
      simp only [findErrorElem] at ih ⊢
      cases h : (e.id == eid) with
      | true => simp [updateFirstErrorElem, List.find?, h]
      | false => simp [updateFirstErrorElem, List.find?, h, ih]

lemma find_updateFirst_ne (es : List ErrorElem) (eid m x : String) (hx : x ≠ eid) :
    findErrorElem (updateFirstErrorElem es eid m) x = findErrorElem es x := by
  induction es with
  | nil => rfl
  | cons e rest ih =>
      simp only [findErrorElem] at ih ⊢
      cases h : (e.id == eid) with
      | true =>
          have he : e.id = eid := by simpa using h
          have hne : (e.id == x) = false := by
            simp [he]
            intro h2
            exact hx h2.symm
          simp [updateFirstErrorElem, List.find?, h, hne]
      | false =>
          cases h2 : (e.id == x) with
          | true => simp [updateFirstErrorElem, List.find?, h, h2]
          | false => simp [updateFirstErrorElem, List.find?, h, h2, ih]

lemma find_removeFirst_ne (es : List ErrorElem) (eid x : String) (hx : x ≠ eid) :
    findErrorElem (removeFirstErrorElem es eid) x = findErrorElem es x := by
  induction es with
  | nil => rfl
  | cons e rest ih =>
      simp only [findErrorElem] at ih ⊢
      cases h : (e.id == eid) with
      | true =>
          have he : e.id = eid := by simpa using h
          have hne : (e.id == x) = false := by
            simp [he]
            intro h2
            exact hx h2.symm
          simp [removeFirstErrorElem, List.find?, h, hne]
      | false =>
          cases h2 : (e.id == x) with
          | true => simp [removeFirstErrorElem, List.find?, h, h2]
          | false => simp [removeFirstErrorElem, List.find?, h, h2, ih]

lemma removeFirst_of_none (es : List ErrorElem) (eid : String)
    (h : findErrorElem es eid = none) : removeFirstErrorElem es eid = es := by
  induction es with
  | nil => rfl
  | cons e rest ih =>
      have hmem := (List.find?_eq_none.mp h) e (List.mem_cons_self e rest)
      have he : (e.id == eid) = false := by simpa using hmem
      have hrest : findErrorElem rest eid = none := by
        apply List.find?_eq_none.mpr
        intro a ha
        exact (List.find?_eq_none.mp h) a (List.mem_cons_of_mem e ha)
      simp [removeFirstErrorElem, he, ih hrest]

lemma count_updateFirst (es : List ErrorElem) (eid m x : String) :
    countErrorElems (updateFirstErrorElem es eid m) x = countErrorElems es x := by
  induction es with
  | nil => rfl
  | cons e rest ih =>
      simp only [countErrorElems] at ih ⊢
      cases h : (e.id == eid) with
      | true => simp [updateFirstErrorElem, List.countP_cons, h]
      | false => simp [updateFirstErrorElem, List.countP_cons, h, ih]

lemma count_removeFirst_self (es : List ErrorElem) (eid : String) :
    countErrorElems (removeFirstErrorElem es eid) eid = countErrorElems es eid - 1 := by
  induction es with
  | nil => rfl
  | cons e rest ih =>
      simp only [countErrorElems] at ih ⊢
      cases h : (e.id == eid) with
      | true => simp [removeFirstErrorElem, List.countP_cons, h]
      | false =>
          simp [removeFirstErrorElem, List.countP_cons, h, ih]

lemma count_removeFirst_ne (es : List ErrorElem) (eid x : String) (hx : x ≠ eid) :
    countErrorElems (removeFirstErrorElem es eid) x = countErrorElems es x := by
  induction es with
  | nil => rfl
  | cons e rest ih =>
      simp only [countErrorElems] at ih ⊢
      cases h : (e.id == eid) with
      | true =>
          have he : e.id = eid := by simpa using h
          have hne : (e.id == x) = false := by
            simp [he]
            intro h2
            exact hx h2.symm
          simp [removeFirstErrorElem, List.countP_cons, h, hne]
      | false => simp [removeFirstErrorElem, List.countP_cons, h, ih]

lemma count_append_single (es : List ErrorElem) (e : ErrorElem) (x : String) :
    countErrorElems (es ++ [e]) x
      = countErrorElems es x + (if e.id == x then 1 else 0) := by
  simp [countErrorElems, List.countP_append, List.countP_cons]

lemma find_append_of_some (es es2 : List ErrorElem) (x : String) (a : ErrorElem)
    (h : findErrorElem es x = some a) :
    findErrorElem (es ++ es2) x = some a := by
  unfold findErrorElem at h ⊢
  rw [List.find?_append, h]
  rfl

lemma find_append_of_none (es es2 : List ErrorElem) (x : String)
    (h : findErrorElem es x = none) :
    findErrorElem (es ++ es2) x = findErrorElem es2 x := by
  unfold findErrorElem at h ⊢
  rw [List.find?_append, h]
  rfl

lemma set_get_same {α : Type} (l : List α) (i : Nat) (a : α)
    (h : l[i]? = some a) : l.set i a = l := by
  induction l generalizing i with
  | nil => simp at h
  | cons b rest ih =>
      cases i with
      | zero =>
          simp at h
          simp [h]
      | succ n =>
          simp at h
          simp [ih n h]

/-! Per-operation lemmas about the form document. -/

/-- The immutable attributes of a field; validation decisions read only
these. -/
def Field.core (f : Field) : String × FieldType × Bool × String :=
  (f.id, f.fieldType, f.required, f.value)

lemma fieldPasses_congr {f g : Field} (h : f.core = g.core) :
    fieldPasses f = fieldPasses g := by
  cases f
  cases g
  simp only [Field.core, Prod.mk.injEq] at h
  obtain ⟨h1, h2, h3, h4⟩ := h
  simp [fieldPasses, h1, h2, h3, h4]

lemma errorIdOf_congr {f g : Field} (h : f.core = g.core) :
    errorIdOf f = errorIdOf g := by
  cases f
  cases g
  simp only [Field.core, Prod.mk.injEq] at h
  simp [errorIdOf, h.1]

lemma show_fields_get_ne (doc : FormDoc) (fi j : Nat) (m : String) (hj : fi ≠ j) :
    (showFieldError doc fi m).fields[j]? = doc.fields[j]? := by
  unfold showFieldError
  cases h : doc.fields[fi]? with
  | none => rfl
  | some f => simp [List.getElem?_set_ne hj]

lemma clear_fields_get_ne (doc : FormDoc) (fi j : Nat) (hj : fi ≠ j) :
    (clearFieldError doc fi).fields[j]? = doc.fields[j]? := by
  unfold clearFieldError
  cases h : doc.fields[fi]? with
  | none => rfl
  | some f => simp [List.getElem?_set_ne hj]

lemma show_fields_get_self (doc : FormDoc) (fi : Nat) (m : String) (f : Field)
    (h : doc.fields[fi]? = some f) :
    (showFieldError doc fi m).fields[fi]?
      = some { f with ariaInvalid := true, borderColor := calloutColor,
                      describedBy := some (errorIdOf f) } := by
  have hlt : fi < doc.fields.length := (List.getElem?_eq_some.mp h).1
  simp only [showFieldError, h]
  simp [List.getElem?_set_eq_of_lt _ hlt, errorIdOf]

lemma clear_fields_get_self (doc : FormDoc) (fi : Nat) (f : Field)
    (h : doc.fields[fi]? = some f) :
    (clearFieldError doc fi).fields[fi]?
      = some { f with ariaInvalid := false, borderColor := "",
                      describedBy := none } := by
  have hlt : fi < doc.fields.length := (List.getElem?_eq_some.mp h).1
  simp only [clearFieldError, h]
  simp [List.getElem?_set_eq_of_lt _ hlt]

lemma show_elems_found (doc : FormDoc) (fi : Nat) (m : String) (f : Field)
    (hget : doc.fields[fi]? = some f) (e : ErrorElem)
    (hfind : findErrorElem doc.errorElems (errorIdOf f) = some e) :
    (showFieldError doc fi m).errorElems
      = updateFirstErrorElem doc.errorElems (errorIdOf f) m := by
  simp only [showFieldError, hget, errorIdOf] at hfind ⊢
  simp [hfind]

lemma show_elems_new (doc : FormDoc) (fi : Nat) (m : String) (f : Field)
    (hget : doc.fields[fi]? = some f)
    (hfind : findErrorElem doc.errorElems (errorIdOf f) = none) :
    (showFieldError doc fi m).errorElems
      = doc.errorElems ++ [{ id := errorIdOf f, text := m, parentIndex := fi }] := by
  simp only [showFieldError, hget, errorIdOf] at hfind ⊢
  simp [hfind]

lemma clear_elems_found (doc : FormDoc) (fi : Nat) (f : Field)
    (hget : doc.fields[fi]? = some f) (e : ErrorElem)
    (hfind : findErrorElem doc.errorElems (errorIdOf f) = some e) :
    (clearFieldError doc fi).errorElems
      = removeFirstErrorElem doc.errorElems (errorIdOf f) := by
  simp only [clearFieldError, hget, errorIdOf] at hfind ⊢
  simp [hfind]

lemma clear_elems_none (doc : FormDoc) (fi : Nat) (f : Field)
    (hget : doc.fields[fi]? = some f)
    (hfind : findErrorElem doc.errorElems (errorIdOf f) = none) :
    (clearFieldError doc fi).errorElems = doc.errorElems := by
  simp only [clearFieldError, hget, errorIdOf] at hfind ⊢
  simp [hfind]

lemma show_find_self (doc : FormDoc) (fi : Nat) (m : String) (f : Field)
    (hget : doc.fields[fi]? = some f) :
    ((findErrorElem (showFieldError doc fi m).errorElems (errorIdOf f)).map
        ErrorElem.text) = some m := by
  cases hfind : findErrorElem doc.errorElems (errorIdOf f) with
  | some e =>
      rw [show_elems_found doc fi m f hget e hfind, find_updateFirst_self, hfind]
      rfl
  | none =>
      rw [show_elems_new doc fi m f hget hfind, find_append_of_none _ _ _ hfind]
      simp [findErrorElem, List.find?]

lemma show_find_ne (doc : FormDoc) (fi : Nat) (m X : String) (g : Field)
    (hget : doc.fields[fi]? = some g) (hne : X ≠ errorIdOf g) :
    findErrorElem (showFieldError doc fi m).errorElems X
      = findErrorElem doc.errorElems X := by
  cases hfind : findErrorElem doc.errorElems (errorIdOf g) with
  | some e =>
      rw [show_elems_found doc fi m g hget e hfind, find_updateFirst_ne _ _ _ _ hne]
  | none =>
      rw [show_elems_new doc fi m g hget hfind]
      cases hx : findErrorElem doc.errorElems X with
      | some a => rw [find_append_of_some _ _ _ _ hx]
      | none =>
          rw [find_append_of_none _ _ _ hx]
          have hb : (errorIdOf g == X) = false := by
            rw [beq_eq_false_iff_ne]
            exact fun h2 => hne h2.symm
          simp [findErrorElem, List.find?, hb]

lemma clear_find_ne (doc : FormDoc) (fi : Nat) (X : String) (g : Field)
    (hget : doc.fields[fi]? = some g) (hne : X ≠ errorIdOf g) :
    findErrorElem (clearFieldError doc fi).errorElems X
      = findErrorElem doc.errorElems X := by
  cases hfind : findErrorElem doc.errorElems (errorIdOf g) with
  | some e =>
      rw [clear_elems_found doc fi g hget e hfind, find_removeFirst_ne _ _ _ hne]
  | none => rw [clear_elems_none doc fi g hget hfind]

lemma clear_find_self (doc : FormDoc) (fi : Nat) (f : Field)
    (hget : doc.fields[fi]? = some f)
    (hcount : countErrorElems doc.errorElems (errorIdOf f) ≤ 1) :
    findErrorElem (clearFieldError doc fi).errorElems (errorIdOf f) = none := by
  cases hfind : findErrorElem doc.errorElems (errorIdOf f) with
  | none => rw [clear_elems_none doc fi f hget hfind]; exact hfind
  | some e =>
      rw [clear_elems_found doc fi f hget e hfind]
      apply (findErrorElem_eq_none _ _).mpr
      rw [count_removeFirst_self]
      have hnz : countErrorElems doc.errorElems (errorIdOf f) ≠ 0 := by
        intro hz
        rw [← findErrorElem_eq_none] at hz
        rw [hz] at hfind
        exact Option.noConfusion hfind
      omega

lemma fieldPasses_required_empty {f : Field} (hreq : f.required = true)
    (hempty : jsTrim f.value = "") : fieldPasses f = false := by
  simp [fieldPasses, hempty, hreq]

lemma fieldPasses_email_invalid {f : Field} (htype : f.fieldType = FieldType.email)
    (hne : jsTrim f.value ≠ "") (hregex : emailRegexTest (jsTrim f.value) = false) :
    fieldPasses f = false := by
  have hbe : (jsTrim f.value == "") = false := beq_eq_false_iff_ne.mpr hne
  simp [fieldPasses, htype, hbe, bne, hregex]

lemma fieldPasses_optional_empty {f : Field} (hreq : f.required = false)
    (hempty : jsTrim f.value = "") : fieldPasses f = true := by
  simp [fieldPasses, hempty, hreq]

lemma validateField_required_empty (doc : FormDoc) (fi : Nat) (f : Field)
    (hget : doc.fields[fi]? = some f)
    (hreq : f.required = true) (hempty : jsTrim f.value = "") :
    validateField doc fi
      = (false, showFieldError (clearFieldError doc fi) fi requiredMessage) := by
  simp [validateField, hget, hempty, hreq]

lemma validateField_email_invalid (doc : FormDoc) (fi : Nat) (f : Field)
    (hget : doc.fields[fi]? = some f)
    (htype : f.fieldType = FieldType.email)
    (hne : jsTrim f.value ≠ "") (hregex : emailRegexTest (jsTrim f.value) = false) :
    validateField doc fi
      = (false, showFieldError (clearFieldError doc fi) fi emailMessage) := by
  have hbe : (jsTrim f.value == "") = false := beq_eq_false_iff_ne.mpr hne
  simp [validateField, hget, htype, hbe, bne, hregex]

lemma validateField_pass (doc : FormDoc) (fi : Nat) (f : Field)
    (hget : doc.fields[fi]? = some f) (hpass : fieldPasses f = true) :
    validateField doc fi = (true, clearFieldError doc fi) := by
  simp only [validateField, hget]
  simp only [fieldPasses] at hpass
  cases h1 : (f.required && jsTrim f.value == "") <;>
  cases h2 : (f.fieldType == FieldType.email && jsTrim f.value != "") <;>
  cases h3 : emailRegexTest (jsTrim f.value) <;>
  simp [h1, h2, h3] at hpass ⊢

lemma validateField_fst (doc : FormDoc) (fi : Nat) :
    (validateField doc fi).1 = ((doc.fields[fi]?).map fieldPasses).getD true := by
  cases hget : doc.fields[fi]? with
  | none => simp [validateField, hget]
  | some f =>
      cases h1 : (f.required && jsTrim f.value == "") <;>
      cases h2 : (f.fieldType == FieldType.email && jsTrim f.value != "") <;>
      cases h3 : emailRegexTest (jsTrim f.value) <;>
      simp [validateField, fieldPasses, hget, h1, h2, h3]

lemma validateField_fail (doc : FormDoc) (fi : Nat) (f : Field)
    (hget : doc.fields[fi]? = some f) (hfail : fieldPasses f = false) :
    validateField doc fi
      = (false, showFieldError (clearFieldError doc fi) fi (fieldMessage f)) := by
  simp only [validateField, hget]
  simp only [fieldPasses] at hfail
  cases h1 : (f.required && jsTrim f.value == "") <;>
  cases h2 : (f.fieldType == FieldType.email && jsTrim f.value != "") <;>
  cases h3 : emailRegexTest (jsTrim f.value) <;>
  simp [fieldMessage, h1, h2, h3] at hfail ⊢

lemma clear_count_self_le (doc : FormDoc) (fi : Nat) (f : Field)
    (hget : doc.fields[fi]? = some f) :
    countErrorElems (clearFieldError doc fi).errorElems (errorIdOf f)
      ≤ countErrorElems doc.errorElems (errorIdOf f) := by
  cases hfind : findErrorElem doc.errorElems (errorIdOf f) with
  | none => rw [clear_elems_none doc fi f hget hfind]
  | some e =>
      rw [clear_elems_found doc fi f hget e hfind, count_removeFirst_self]
      omega

lemma show_count_self_le_one (doc : FormDoc) (fi : Nat) (m : String) (f : Field)
    (hget : doc.fields[fi]? = some f)
    (hcount : countErrorElems doc.errorElems (errorIdOf f) ≤ 1) :
    countErrorElems (showFieldError doc fi m).errorElems (errorIdOf f) ≤ 1 := by
  cases hfind : findErrorElem doc.errorElems (errorIdOf f) with
  | some e =>
      rw [show_elems_found doc fi m f hget e hfind, count_updateFirst]
      exact hcount
  | none =>
      rw [show_elems_new doc fi m f hget hfind, count_append_single]
      have h0 : countErrorElems doc.errorElems (errorIdOf f) = 0 :=
        (findErrorElem_eq_none _ _).mp hfind
      simp [h0]

/-- Claim C3: validateField applies its rules in order with the first
failure winning.  A required field whose trimmed value is empty fails with
the required message (the email rule cannot fire on an empty value); an
email field with a non-empty trimmed value failing the pattern fails with
the invalid-email message; a non-required empty field passes with no error
left behind; at most one error element per field survives a validation;
and concretely the pattern accepts a@b.co and rejects a@b. -/
theorem validateField_spec (doc : FormDoc) (fi : Nat) (f : Field)
    (hget : doc.fields[fi]? = some f)
    (hcount : countErrorElems doc.errorElems (errorIdOf f) ≤ 1) :
    (f.required = true → jsTrim f.value = "" →
       (validateField doc fi).1 = false
       ∧ ((findErrorElem (validateField doc fi).2.errorElems (errorIdOf f)).map
           ErrorElem.text) = some requiredMessage)
    ∧ (f.fieldType = FieldType.email → jsTrim f.value ≠ "" →
         emailRegexTest (jsTrim f.value) = false →
         (validateField doc fi).1 = false
         ∧ ((findErrorElem (validateField doc fi).2.errorElems (errorIdOf f)).map
             ErrorElem.text) = some emailMessage)
    ∧ (f.required = false → jsTrim f.value = "" →
         (validateField doc fi).1 = true
         ∧ findErrorElem (validateField doc fi).2.errorElems (errorIdOf f) = none
         ∧ (validateField doc fi).2.fields[fi]?
             = some { f with ariaInvalid := false, borderColor := "",
                             describedBy := none })
    ∧ countErrorElems (validateField doc fi).2.errorElems (errorIdOf f) ≤ 1
    ∧ emailRegexTest "a@b.co" = true
    ∧ emailRegexTest "a@b" = false := by
  refine ⟨?_, ?_, ?_, ?_, by decide, by decide⟩
  · intro hreq hempty
    rw [validateField_required_empty doc fi f hget hreq hempty]
    exact ⟨rfl, show_find_self (clearFieldError doc fi) fi requiredMessage
      { f with ariaInvalid := false, borderColor := "", describedBy := none }
      (clear_fields_get_self doc fi f hget)⟩
  · intro htype hne hregex
    rw [validateField_email_invalid doc fi f hget htype hne hregex]
    exact ⟨rfl, show_find_self (clearFieldError doc fi) fi emailMessage
      { f with ariaInvalid := false, borderColor := "", describedBy := none }
      (clear_fields_get_self doc fi f hget)⟩
  · intro hreq hempty
    have hpass := fieldPasses_optional_empty hreq hempty
    rw [validateField_pass doc fi f hget hpass]
    exact ⟨rfl, clear_find_self doc fi f hget hcount,
      clear_fields_get_self doc fi f hget⟩
  · cases hp : fieldPasses f with
    | true =>
        rw [validateField_pass doc fi f hget hp]
        exact Nat.le_trans (clear_count_self_le doc fi f hget) hcount
    | false =>
        rw [validateField_fail doc fi f hget hp]
        exact show_count_self_le_one (clearFieldError doc fi) fi (fieldMessage f)
          { f with ariaInvalid := false, borderColor := "", describedBy := none }
          (clear_fields_get_self doc fi f hget)
          (Nat.le_trans (clear_count_self_le doc fi f hget) hcount)

/-- Example for the validateField theorem: one empty required field. -/
def exampleFieldC3 : Field :=
  { id := "name", fieldType := FieldType.text, required := true, value := "",
    ariaInvalid := false, borderColor := "", describedBy := none }

/-- Example document for the validateField theorem. -/
def exampleDocC3 : FormDoc := { fields := [exampleFieldC3], errorElems := [] }

/-- Closed instance of the validateField theorem at an empty required
field: validation fails and the required message is shown. -/
theorem validateField_spec_witness :
    (exampleDocC3.fields[0]? = some exampleFieldC3
      ∧ countErrorElems exampleDocC3.errorElems (errorIdOf exampleFieldC3) ≤ 1
      ∧ exampleFieldC3.required = true ∧ jsTrim exampleFieldC3.value = "")
    ∧ ((validateField exampleDocC3 0).1 = false
       ∧ ((findErrorElem (validateField exampleDocC3 0).2.errorElems
            (errorIdOf exampleFieldC3)).map ErrorElem.text) = some requiredMessage) :=
  ⟨⟨by decide, by decide, by decide, by decide⟩,
   (validateField_spec exampleDocC3 0 exampleFieldC3 (by decide) (by decide)).1
     (by decide) (by decide)⟩

/-- Claim C7: clearFieldError on a field that carries no error (no invalid
mark, no inline border color, no described-by link, no error element under
its key) leaves the document unchanged, and showing an error twice in a row
on the same field leaves exactly one error element under the field's key,
holding the latest message. -/
theorem fieldError_clear_idempotent_show_single (doc : FormDoc) (fi : Nat)
    (f : Field) (m1 m2 : String)
    (hget : doc.fields[fi]? = some f)
    (hclear : f.ariaInvalid = false) (hborder : f.borderColor = "")
    (hdesc : f.describedBy = none)
    (hnoelem : findErrorElem doc.errorElems (errorIdOf f) = none) :
    clearFieldError doc fi = doc
    ∧ countErrorElems (showFieldError (showFieldError doc fi m1) fi m2).errorElems
        (errorIdOf f) = 1
    ∧ ((findErrorElem (showFieldError (showFieldError doc fi m1) fi m2).errorElems
        (errorIdOf f)).map ErrorElem.text) = some m2 := by
  have hnoelem2 : findErrorElem doc.errorElems (f.id ++ "-error") = none := hnoelem
  have hf : ({ f with ariaInvalid := false, borderColor := "",
                      describedBy := none } : Field) = f := by
    cases f
    simp only at hclear hborder hdesc
    simp [hclear, hborder, hdesc]
  have h1elems : (showFieldError doc fi m1).errorElems
      = doc.errorElems ++ [{ id := errorIdOf f, text := m1, parentIndex := fi }] :=
    show_elems_new doc fi m1 f hget hnoelem
  have h1get : (showFieldError doc fi m1).fields[fi]?
      = some { f with ariaInvalid := true, borderColor := calloutColor,
                      describedBy := some (errorIdOf f) } :=
    show_fields_get_self doc fi m1 f hget
  have hfind1 : findErrorElem (showFieldError doc fi m1).errorElems (errorIdOf f)
      = some { id := errorIdOf f, text := m1, parentIndex := fi } := by
    rw [h1elems, find_append_of_none _ _ _ hnoelem]
    simp [findErrorElem, List.find?]
  have h2elems : (showFieldError (showFieldError doc fi m1) fi m2).errorElems
      = updateFirstErrorElem (showFieldError doc fi m1).errorElems (errorIdOf f) m2 :=
    show_elems_found (showFieldError doc fi m1) fi m2
      { f with ariaInvalid := true, borderColor := calloutColor,
               describedBy := some (errorIdOf f) } h1get _ hfind1
  have h0 : countErrorElems doc.errorElems (errorIdOf f) = 0 :=
    (findErrorElem_eq_none _ _).mp hnoelem
  refine ⟨?_, ?_, ?_⟩
  · calc clearFieldError doc fi
        = { fields := doc.fields.set fi
              { f with ariaInvalid := false, borderColor := "", describedBy := none },
            errorElems := doc.errorElems } := by
          simp only [clearFieldError, hget, hnoelem2]
      _ = { fields := doc.fields.set fi f, errorElems := doc.errorElems } := by rw [hf]
      _ = { fields := doc.fields, errorElems := doc.errorElems } := by
          rw [set_get_same doc.fields fi f hget]
      _ = doc := rfl
  · rw [h2elems, count_updateFirst, h1elems, count_append_single, h0]
    simp
  · rw [h2elems, find_updateFirst_self, hfind1]
    rfl

/-- Example field with no current error, for the C7 theorem. -/
def exampleFieldC7 : Field :=
  { id := "email", fieldType := FieldType.email, required := true, value := "a@b",
    ariaInvalid := false, borderColor := "", describedBy := none }

/-- Example document for the C7 theorem. -/
def exampleDocC7 : FormDoc := { fields := [exampleFieldC7], errorElems := [] }

/-- Closed instance of the C7 theorem at a concrete clean field. -/
theorem fieldError_clear_idempotent_show_single_witness :
    (exampleDocC7.fields[0]? = some exampleFieldC7
      ∧ exampleFieldC7.ariaInvalid = false ∧ exampleFieldC7.borderColor = ""
      ∧ exampleFieldC7.describedBy = none
      ∧ findErrorElem exampleDocC7.errorElems (errorIdOf exampleFieldC7) = none)
    ∧ (clearFieldError exampleDocC7 0 = exampleDocC7
       ∧ countErrorElems (showFieldError (showFieldError exampleDocC7 0 "first") 0
           "second").errorElems (errorIdOf exampleFieldC7) = 1
       ∧ ((findErrorElem (showFieldError (showFieldError exampleDocC7 0 "first") 0
           "second").errorElems (errorIdOf exampleFieldC7)).map ErrorElem.text)
           = some "second") :=
  ⟨⟨by decide, by decide, by decide, by decide, by decide⟩,
   fieldError_clear_idempotent_show_single exampleDocC7 0 exampleFieldC7
     "first" "second" (by decide) (by decide) (by decide) (by decide) (by decide)⟩

/-- Claim C10: the association between a field and its error element is
keyed solely by the string `field.id + "-error"`.  For two distinct fields
whose id attributes are equal, showing an error on the second updates the
very element created for the first (which keeps the first field's parent)
instead of creating its own, the second field's described-by link points at
that shared element, and clearing either field removes it. -/
theorem duplicateId_shared_error_element (doc : FormDoc) (fi fj : Nat)
    (f g : Field) (m1 m2 : String)
    (hgi : doc.fields[fi]? = some f) (hgj : doc.fields[fj]? = some g)
    (hne : fi ≠ fj) (hid : f.id = g.id)
    (hnoelem : findErrorElem doc.errorElems (errorIdOf f) = none) :
    countErrorElems (showFieldError (showFieldError doc fi m1) fj m2).errorElems
        (errorIdOf f) = 1
    ∧ findErrorElem (showFieldError (showFieldError doc fi m1) fj m2).errorElems
        (errorIdOf f)
        = some { id := errorIdOf f, text := m2, parentIndex := fi }
    ∧ (((showFieldError (showFieldError doc fi m1) fj m2).fields[fj]?).map
        Field.describedBy) = some (some (errorIdOf f))
    ∧ countErrorElems (clearFieldError
        (showFieldError (showFieldError doc fi m1) fj m2) fi).errorElems
        (errorIdOf f) = 0
    ∧ countErrorElems (clearFieldError
        (showFieldError (showFieldError doc fi m1) fj m2) fj).errorElems
        (errorIdOf f) = 0 := by
  have hXg : errorIdOf g = errorIdOf f := by simp [errorIdOf, hid]
  have h0 : countErrorElems doc.errorElems (errorIdOf f) = 0 :=
    (findErrorElem_eq_none _ _).mp hnoelem
  have h1elems : (showFieldError doc fi m1).errorElems
      = doc.errorElems ++ [{ id := errorIdOf f, text := m1, parentIndex := fi }] :=
    show_elems_new doc fi m1 f hgi hnoelem
  have h1get_j : (showFieldError doc fi m1).fields[fj]? = some g := by
    rw [show_fields_get_ne doc fi fj m1 hne]
    exact hgj
  have h1get_i : (showFieldError doc fi m1).fields[fi]?
      = some { f with ariaInvalid := true, borderColor := calloutColor,
                      describedBy := some (errorIdOf f) } :=
    show_fields_get_self doc fi m1 f hgi
  have hfind1 : findErrorElem (showFieldError doc fi m1).errorElems (errorIdOf f)
      = some { id := errorIdOf f, text := m1, parentIndex := fi } := by
    rw [h1elems, find_append_of_none _ _ _ hnoelem]
    simp [findErrorElem, List.find?]
  have hfind1g : findErrorElem (showFieldError doc fi m1).errorElems (errorIdOf g)
      = some { id := errorIdOf f, text := m1, parentIndex := fi } := by
    rw [hXg]
    exact hfind1
  have h2elems : (showFieldError (showFieldError doc fi m1) fj m2).errorElems
      = updateFirstErrorElem (showFieldError doc fi m1).errorElems (errorIdOf g) m2 :=
    show_elems_found (showFieldError doc fi m1) fj m2 g h1get_j _ hfind1g
  have hcount2 : countErrorElems
      (showFieldError (showFieldError doc fi m1) fj m2).errorElems (errorIdOf f) = 1 := by
    rw [h2elems, count_updateFirst, h1elems, count_append_single, h0]
    simp
  have hfind2 : findErrorElem
      (showFieldError (showFieldError doc fi m1) fj m2).errorElems (errorIdOf f)
      = some { id := errorIdOf f, text := m2, parentIndex := fi } := by
    rw [h2elems, hXg, find_updateFirst_self, hfind1]
    rfl
  have h2get_j : (showFieldError (showFieldError doc fi m1) fj m2).fields[fj]?
      = some { g with ariaInvalid := true, borderColor := calloutColor,
                      describedBy := some (errorIdOf g) } :=
    show_fields_get_self (showFieldError doc fi m1) fj m2 g h1get_j
  have h2get_i : (showFieldError (showFieldError doc fi m1) fj m2).fields[fi]?
      = some { f with ariaInvalid := true, borderColor := calloutColor,
                      describedBy := some (errorIdOf f) } := by
    rw [show_fields_get_ne (showFieldError doc fi m1) fj fi m2 (Ne.symm hne)]
    exact h1get_i
  refine ⟨hcount2, hfind2, ?_, ?_, ?_⟩
  · rw [h2get_j]
    simp [hXg]
  · have hres := clear_find_self (showFieldError (showFieldError doc fi m1) fj m2) fi
      { f with ariaInvalid := true, borderColor := calloutColor,
               describedBy := some (errorIdOf f) } h2get_i
      (by simpa [errorIdOf] using hcount2.le)
    exact (findErrorElem_eq_none _ _).mp hres
  · have hres := clear_find_self (showFieldError (showFieldError doc fi m1) fj m2) fj
      { g with ariaInvalid := true, borderColor := calloutColor,
               describedBy := some (errorIdOf g) } h2get_j
      (by simpa [errorIdOf, hid] using hcount2.le)
    rw [← hXg]
    exact (findErrorElem_eq_none _ _).mp hres

/-- Example fields with the same (empty) id attribute, for the C10
theorem. -/
def exampleFieldC10a : Field :=
  { id := "", fieldType := FieldType.text, required := true, value := "",
    ariaInvalid := false, borderColor := "", describedBy := none }

/-- Second example field sharing the id, for the C10 theorem. -/
def exampleFieldC10b : Field :=
  { id := "", fieldType := FieldType.email, required := false, value := "x",
    ariaInvalid := false, borderColor := "", describedBy := none }

/-- Example document with two fields sharing an id, for the C10 theorem. -/
def exampleDocC10 : FormDoc :=
  { fields := [exampleFieldC10a, exampleFieldC10b], errorElems := [] }

/-- Closed instance of the C10 theorem at two fields with equal (empty)
ids. -/
theorem duplicateId_shared_error_element_witness :
    (exampleDocC10.fields[0]? = some exampleFieldC10a
      ∧ exampleDocC10.fields[1]? = some exampleFieldC10b
      ∧ (0 : Nat) ≠ 1 ∧ exampleFieldC10a.id = exampleFieldC10b.id
      ∧ findErrorElem exampleDocC10.errorElems (errorIdOf exampleFieldC10a) = none)
    ∧ (countErrorElems (showFieldError (showFieldError exampleDocC10 0 "first") 1
          "second").errorElems (errorIdOf exampleFieldC10a) = 1
       ∧ findErrorElem (showFieldError (showFieldError exampleDocC10 0 "first") 1
          "second").errorElems (errorIdOf exampleFieldC10a)
          = some { id := errorIdOf exampleFieldC10a, text := "second", parentIndex := 0 }
       ∧ (((showFieldError (showFieldError exampleDocC10 0 "first") 1
          "second").fields[1]?).map Field.describedBy)
          = some (some (errorIdOf exampleFieldC10a))
       ∧ countErrorElems (clearFieldError (showFieldError (showFieldError
          exampleDocC10 0 "first") 1 "second") 0).errorElems
          (errorIdOf exampleFieldC10a) = 0
       ∧ countErrorElems (clearFieldError (showFieldError (showFieldError
          exampleDocC10 0 "first") 1 "second") 1).errorElems
          (errorIdOf exampleFieldC10a) = 0) :=
  ⟨⟨by decide, by decide, by decide, by decide, by decide⟩,
   duplicateId_shared_error_element exampleDocC10 0 1 exampleFieldC10a
     exampleFieldC10b "first" "second" (by decide) (by decide) (by decide)
     (by decide) (by decide)⟩

/-! Lemmas about validateForm: one validation step does not disturb other
fields or error elements keyed under other ids, and overall validity is the
conjunction of the per-field checks. -/

lemma validateField_get_ne (doc : FormDoc) (fi j : Nat) (hj : fi ≠ j) :
    (validateField doc fi).2.fields[j]? = doc.fields[j]? := by
  cases hget : doc.fields[fi]? with
  | none => simp [validateField, hget]
  | some f =>
      cases hp : fieldPasses f with
      | true =>
          rw [validateField_pass doc fi f hget hp]
          exact clear_fields_get_ne doc fi j hj
      | false =>
          rw [validateField_fail doc fi f hget hp]
          rw [show_fields_get_ne _ fi j _ hj]
          exact clear_fields_get_ne doc fi j hj

lemma validateField_core (doc : FormDoc) (fi j : Nat) :
    ((validateField doc fi).2.fields[j]?).map Field.core
      = (doc.fields[j]?).map Field.core := by
  by_cases hij : fi = j
  · subst hij
    cases hget : doc.fields[fi]? with
    | none => simp [validateField, hget]
    | some f =>
        cases hp : fieldPasses f with
        | true =>
            rw [validateField_pass doc fi f hget hp,
              clear_fields_get_self doc fi f hget]
            rfl
        | false =>
            rw [validateField_fail doc fi f hget hp,
              show_fields_get_self (clearFieldError doc fi) fi (fieldMessage f)
                { f with ariaInvalid := false, borderColor := "", describedBy := none }
                (clear_fields_get_self doc fi f hget)]
            rfl
  · rw [validateField_get_ne doc fi j hij]

lemma map_fieldPasses_of_core {o1 o2 : Option Field}
    (h : o1.map Field.core = o2.map Field.core) :
    o1.map fieldPasses = o2.map fieldPasses := by
  cases o1 with
  | none => cases o2 with
    | none => rfl
    | some g => exact Option.noConfusion h
  | some f => cases o2 with
    | none => exact Option.noConfusion h
    | some g =>
        simp only [Option.map] at h ⊢
        exact congrArg some (fieldPasses_congr (Option.some.inj h))

lemma some_of_core_map {o1 o2 : Option Field} {g : Field}
    (h : o1.map Field.core = o2.map Field.core) (hg : o1 = some g) :
    ∃ g0, o2 = some g0 ∧ errorIdOf g = errorIdOf g0 := by
  subst hg
  cases o2 with
  | none => exact Option.noConfusion h
  | some g0 =>
      refine ⟨g0, rfl, ?_⟩
      simp only [Option.map] at h
      exact errorIdOf_congr (Option.some.inj h)

lemma validateField_find_ne (doc : FormDoc) (fi : Nat) (X : String)
    (hdiff : ∀ g, doc.fields[fi]? = some g → errorIdOf g ≠ X) :
    findErrorElem (validateField doc fi).2.errorElems X
      = findErrorElem doc.errorElems X := by
  cases hget : doc.fields[fi]? with
  | none => simp [validateField, hget]
  | some g =>
      have hXg : X ≠ errorIdOf g := Ne.symm (hdiff g hget)
      cases hp : fieldPasses g with
      | true =>
          rw [validateField_pass doc fi g hget hp]
          exact clear_find_ne doc fi X g hget hXg
      | false =>
          rw [validateField_fail doc fi g hget hp]
          rw [show_find_ne (clearFieldError doc fi) fi (fieldMessage g) X
            { g with ariaInvalid := false, borderColor := "", describedBy := none }
            (clear_fields_get_self doc fi g hget) hXg]
          exact clear_find_ne doc fi X g hget hXg

lemma list_all_congr {l : List Nat} {p q : Nat → Bool} (h : ∀ a, p a = q a) :
    l.all p = l.all q := by
  have : p = q := funext h
  rw [this]

lemma runValidateFields_fst (idxs : List Nat) (doc : FormDoc) (acc : Bool) :
    (runValidateFields doc acc idxs).1
      = (acc && idxs.all (fun i => ((doc.fields[i]?).map fieldPasses).getD true)) := by
  induction idxs generalizing doc acc with
  | nil => simp [runValidateFields]
  | cons i rest ih =>
      simp only [runValidateFields, List.all_cons]
      rw [ih]
      have hall : rest.all (fun j =>
            (((validateField doc i).2.fields[j]?).map fieldPasses).getD true)
          = rest.all (fun j => ((doc.fields[j]?).map fieldPasses).getD true) := by
        apply list_all_congr
        intro a
        rw [map_fieldPasses_of_core (validateField_core doc i a)]
      rw [hall, validateField_fst doc i, Bool.and_assoc]

lemma runValidateFields_stable (idxs : List Nat) (doc : FormDoc) (acc : Bool)
    (fi : Nat) (X : String)
    (hni : ∀ i ∈ idxs, i ≠ fi)
    (hdiff : ∀ i ∈ idxs, ∀ g, doc.fields[i]? = some g → errorIdOf g ≠ X) :
    (runValidateFields doc acc idxs).2.fields[fi]? = doc.fields[fi]?
    ∧ findErrorElem (runValidateFields doc acc idxs).2.errorElems X
        = findErrorElem doc.errorElems X := by
  induction idxs generalizing doc acc with
  | nil => exact ⟨rfl, rfl⟩
  | cons i rest ih =>
      simp only [runValidateFields]
      have hstep_get : (validateField doc i).2.fields[fi]? = doc.fields[fi]? :=
        validateField_get_ne doc i fi (hni i (List.mem_cons_self i rest))
      have hstep_find : findErrorElem (validateField doc i).2.errorElems X
          = findErrorElem doc.errorElems X :=
        validateField_find_ne doc i X (hdiff i (List.mem_cons_self i rest))
      have hrec := ih (validateField doc i).2 (acc && (validateField doc i).1)
        (fun i2 h2 => hni i2 (List.mem_cons_of_mem i h2))
        (fun i2 h2 g hg => by
          obtain ⟨g0, hg0, heq⟩ :=
            some_of_core_map (validateField_core doc i i2) hg
          rw [heq]
          exact hdiff i2 (List.mem_cons_of_mem i h2) g0 hg0)
      exact ⟨hrec.1.trans hstep_get, hrec.2.trans hstep_find⟩

lemma runValidateFields_required_empty (idxs : List Nat) (doc : FormDoc)
    (acc : Bool) (fi : Nat) (f : Field)
    (hnodup : idxs.Nodup)
    (hmem : fi ∈ idxs)
    (hget : doc.fields[fi]? = some f)
    (hreq : f.required = true) (hempty : jsTrim f.value = "")
    (hdiff : ∀ i ∈ idxs, i ≠ fi → ∀ g, doc.fields[i]? = some g →
       errorIdOf g ≠ errorIdOf f) :
    (runValidateFields doc acc idxs).2.fields[fi]?
        = some { f with ariaInvalid := true, borderColor := calloutColor,
                        describedBy := some (errorIdOf f) }
    ∧ ((findErrorElem (runValidateFields doc acc idxs).2.errorElems
        (errorIdOf f)).map ErrorElem.text) = some requiredMessage := by
  induction idxs generalizing doc acc with
  | nil => exact absurd hmem (List.not_mem_nil fi)
  | cons i rest ih =>
      simp only [runValidateFields]
      by_cases hif : i = fi
      · subst hif
        have hstep := validateField_required_empty doc i f hget hreq hempty
        rw [hstep]
        have hd1get : (showFieldError (clearFieldError doc i) i
              requiredMessage).fields[i]?
            = some { f with ariaInvalid := true, borderColor := calloutColor,
                            describedBy := some (errorIdOf f) } :=
          show_fields_get_self (clearFieldError doc i) i requiredMessage
            { f with ariaInvalid := false, borderColor := "", describedBy := none }
            (clear_fields_get_self doc i f hget)
        have hd1find : ((findErrorElem (showFieldError (clearFieldError doc i) i
              requiredMessage).errorElems (errorIdOf f)).map ErrorElem.text)
            = some requiredMessage :=
          show_find_self (clearFieldError doc i) i requiredMessage
            { f with ariaInvalid := false, borderColor := "", describedBy := none }
            (clear_fields_get_self doc i f hget)
        have hnotmem : i ∉ rest := (List.nodup_cons.mp hnodup).1
        have hstable := runValidateFields_stable rest
          (showFieldError (clearFieldError doc i) i requiredMessage)
          (acc && false) i (errorIdOf f)
          (fun i2 h2 heq => hnotmem (heq ▸ h2))
          (fun i2 h2 g hg => by
            have hcore : ((showFieldError (clearFieldError doc i) i
                  requiredMessage).fields[i2]?).map Field.core
                = (doc.fields[i2]?).map Field.core := by
              have := validateField_core doc i i2
              rw [hstep] at this
              exact this
            obtain ⟨g0, hg0, heq⟩ := some_of_core_map hcore hg
            rw [heq]
            exact hdiff i2 (List.mem_cons_of_mem i h2)
              (fun he => hnotmem (he ▸ h2)) g0 hg0)
        refine ⟨hstable.1.trans hd1get, ?_⟩
        rw [hstable.2]
        exact hd1find
      · have hmem2 : fi ∈ rest := by
          rcases List.mem_cons.mp hmem with he | h2
          · exact absurd he.symm hif
          · exact h2
        have hget1 : (validateField doc i).2.fields[fi]? = some f := by
          rw [validateField_get_ne doc i fi hif]
          exact hget
        exact ih (validateField doc i).2 (acc && (validateField doc i).1)
          (List.nodup_cons.mp hnodup).2 hmem2 hget1
          (fun i2 h2 hne g hg => by
            obtain ⟨g0, hg0, heq⟩ :=
              some_of_core_map (validateField_core doc i i2) hg
            rw [heq]
            exact hdiff i2 (List.mem_cons_of_mem i h2) hne g0 hg0)

lemma requiredIndices_nodup (doc : FormDoc) : (requiredIndices doc).Nodup :=
  (List.nodup_range doc.fields.length).filter _

lemma mem_requiredIndices (doc : FormDoc) (i : Nat) :
    i ∈ requiredIndices doc
      ↔ i < doc.fields.length
        ∧ ((doc.fields[i]?).map Field.required).getD false = true := by
  simp [requiredIndices, List.mem_filter, List.mem_range]

lemma mem_requiredIndices_of_get (doc : FormDoc) (i : Nat) (f : Field)
    (hget : doc.fields[i]? = some f) (hreq : f.required = true) :
    i ∈ requiredIndices doc := by
  rw [mem_requiredIndices]
  exact ⟨(List.getElem?_eq_some.mp hget).1, by rw [hget]; simpa using hreq⟩

lemma string_append_right_cancel {a b c : String} (h : a ++ c = b ++ c) :
    a = b := by
  apply String.ext
  have hd := congrArg String.data h
  rw [String.data_append, String.data_append] at hd
  exact List.append_cancel_right hd

lemma nodup_ids_ne (l : List Field) (h : (l.map Field.id).Nodup)
    {i j : Nat} {f g : Field}
    (hi : l[i]? = some f) (hj : l[j]? = some g) (hij : i ≠ j) : f.id ≠ g.id := by
  intro he
  have hi2 : (l.map Field.id)[i]? = some f.id := by
    rw [List.getElem?_map, hi]
    rfl
  have hj2 : (l.map Field.id)[j]? = some g.id := by
    rw [List.getElem?_map, hj]
    rfl
  have hlen : i < (l.map Field.id).length := (List.getElem?_eq_some.mp hi2).1
  exact hij (List.getElem?_inj hlen h (by rw [hi2, hj2, he]))

lemma errorIdOf_ne {f g : Field} (h : f.id ≠ g.id) :
    errorIdOf f ≠ errorIdOf g :=
  fun he => h (string_append_right_cancel he)

/-- Claim C2: on a contact form whose fields carry distinct id attributes,
the submit handler cancels the event exactly when some required field fails
validation (so an untouched form with an empty required field never
submits), and after a cancelled submission every required field that was
empty after trimming carries the invalid mark, the described-by link, and
an error element holding the required message; when every required field
validates, the event is not cancelled and the native submission proceeds. -/
theorem contactFormSubmit_spec (doc : FormDoc)
    (hIds : (doc.fields.map Field.id).Nodup) :
    ((contactFormSubmit doc).prevented = false
       ↔ ∀ f ∈ doc.fields, f.required = true → fieldPasses f = true)
    ∧ (∀ (fi : Nat) (f : Field), doc.fields[fi]? = some f → f.required = true →
         jsTrim f.value = "" →
         (contactFormSubmit doc).prevented = true
         ∧ (contactFormSubmit doc).doc.fields[fi]?
             = some { f with ariaInvalid := true, borderColor := calloutColor,
                             describedBy := some (errorIdOf f) }
         ∧ ((findErrorElem (contactFormSubmit doc).doc.errorElems
             (errorIdOf f)).map ErrorElem.text) = some requiredMessage) := by
  have hfst : (validateForm doc).1
      = (requiredIndices doc).all
          (fun i => ((doc.fields[i]?).map fieldPasses).getD true) := by
    rw [validateForm, runValidateFields_fst]
    simp
  constructor
  · constructor
    · intro h f hf hreqf
      have hall : (validateForm doc).1 = true := by
        cases hv : (validateForm doc).1 with
        | true => rfl
        | false =>
            exfalso
            simp only [contactFormSubmit, hv] at h
            exact Bool.noConfusion h
      obtain ⟨n, hn⟩ := List.mem_iff_getElem?.mp hf
      have hni : n ∈ requiredIndices doc :=
        mem_requiredIndices_of_get doc n f hn hreqf
      have := List.all_eq_true.mp (hfst ▸ hall) n hni
      rw [hn] at this
      simpa using this
    · intro h
      have hall : (requiredIndices doc).all
          (fun i => ((doc.fields[i]?).map fieldPasses).getD true) = true := by
        apply List.all_eq_true.mpr
        intro i hi
        obtain ⟨hlt, hreqi⟩ := (mem_requiredIndices doc i).mp hi
        have hgi : doc.fields[i]? = some doc.fields[i] :=
          List.getElem?_eq_getElem hlt
        rw [hgi] at hreqi ⊢
        have hmem : doc.fields[i] ∈ doc.fields := List.getElem_mem hlt
        have hreqi2 : (doc.fields[i]).required = true := by simpa using hreqi
        simpa using h (doc.fields[i]) hmem hreqi2
      simp only [contactFormSubmit]
      rw [hfst, hall]
      rfl
  · intro fi f hget hreqf hempty
    have hpassf : fieldPasses f = false := fieldPasses_required_empty hreqf hempty
    have hmemi : fi ∈ requiredIndices doc :=
      mem_requiredIndices_of_get doc fi f hget hreqf
    have hprev : (contactFormSubmit doc).prevented = true := by
      cases hv : (requiredIndices doc).all
          (fun i => ((doc.fields[i]?).map fieldPasses).getD true) with
      | true =>
          exfalso
          have := List.all_eq_true.mp hv fi hmemi
          rw [hget] at this
          simp only [Option.map, Option.getD_some] at this
          rw [hpassf] at this
          exact Bool.noConfusion this
      | false =>
          simp only [contactFormSubmit]
          rw [hfst, hv]
          rfl
    have houtcome := runValidateFields_required_empty (requiredIndices doc) doc
      true fi f (requiredIndices_nodup doc) hmemi hget hreqf hempty
      (fun i h2 hne g hg =>
        errorIdOf_ne (nodup_ids_ne doc.fields hIds hg hget hne))
    exact ⟨hprev, houtcome.1, houtcome.2⟩

/-- Example empty required field for the C2 theorem. -/
def exampleFieldC2 : Field :=
  { id := "name", fieldType := FieldType.text, required := true, value := "",
    ariaInvalid := false, borderColor := "", describedBy := none }

/-- Example contact form for the C2 theorem: three required fields with
distinct ids, the first empty. -/
def exampleDocC2 : FormDoc :=
  { fields := [exampleFieldC2,
      { id := "email", fieldType := FieldType.email, required := true,
        value := "a@b.co", ariaInvalid := false, borderColor := "",
        describedBy := none },
      { id := "message", fieldType := FieldType.textarea, required := true,
        value := "hello", ariaInvalid := false, borderColor := "",
        describedBy := none }],
    errorElems := [] }

/-- Closed instance of the contact-form submit theorem: with the name field
empty, the submission is cancelled and the name field shows the required
message. -/
theorem contactFormSubmit_spec_witness :
    ((exampleDocC2.fields.map Field.id).Nodup
      ∧ exampleDocC2.fields[0]? = some exampleFieldC2
      ∧ exampleFieldC2.required = true ∧ jsTrim exampleFieldC2.value = "")
    ∧ ((contactFormSubmit exampleDocC2).prevented = true
       ∧ (contactFormSubmit exampleDocC2).doc.fields[0]?
           = some { exampleFieldC2 with
                      ariaInvalid := true,
                      borderColor := calloutColor,
                      describedBy := some (errorIdOf exampleFieldC2) }
       ∧ ((findErrorElem (contactFormSubmit exampleDocC2).doc.errorElems
           (errorIdOf exampleFieldC2)).map ErrorElem.text)
           = some requiredMessage) :=
  ⟨⟨by decide, by decide, by decide, by decide⟩,
   (contactFormSubmit_spec exampleDocC2 (by decide)).2 0 exampleFieldC2
     (by decide) (by decide) (by decide)⟩

/-! Setup guards.  setupMobileNavigation returns early unless the toggle
and the menu are present, but its outside-click listener also dereferences
the navigation container (navigation.contains), which that guard does not
check.  The model below makes each element optional and raises a type
error exactly where the source would throw one. -/

/-- Presence of the DOM elements the mobile navigation feature touches:
the element with id nav-toggle, the element with id nav-menu, and the
container matching the hamburger-nav selector. -/
structure NavDom where
  navToggle : Bool
  navMenu : Bool
  navigation : Bool
deriving DecidableEq, Repr

/-- The guard of setupMobileNavigation: proceed only when the toggle and
the menu are present.  The navigation container is not among the checked
elements. -/
def navGuardPasses (dom : NavDom) : Bool := dom.navToggle && dom.navMenu

/-- The fault raised by dereferencing an absent element. -/
inductive JsError where
  | typeError
deriving DecidableEq, Repr

/-- One event dispatch with element presence tracked.  When the guard
failed, no listener was attached, so every event is a no-op.  Otherwise
the outside-click listener first reads the open flag and then calls
`contains` on the navigation container, which faults when that container
is absent; the remaining listeners touch only the toggle and the menu. -/
def navStepChecked (dom : NavDom) (s : NavState) (e : NavEvent) :
    Except JsError NavState :=
  if !(navGuardPasses dom) then Except.ok s
  else
    match e with
    | NavEvent.toggleActivate => Except.ok (toggleMobileMenu s)
    | NavEvent.documentClick inside =>
        if s.isMenuOpen then
          if dom.navigation then
            Except.ok (if !inside then closeMobileMenu s else s)
          else Except.error JsError.typeError
        else Except.ok s
    | NavEvent.keydown key =>
        if key == "Escape" && s.isMenuOpen then
          Except.ok { closeMobileMenu s with focusTarget := some NavFocus.toggleControl }
        else Except.ok s
    | NavEvent.resize width =>
        if 768 ≤ width && s.isMenuOpen then Except.ok (closeMobileMenu s)
        else Except.ok s

/-- A sequence of events with element presence tracked; the first fault
aborts the run. -/
def runNavChecked (dom : NavDom) (s : NavState) :
    List NavEvent → Except JsError NavState
  | [] => Except.ok s
  | e :: rest =>
      match navStepChecked dom s e with
      | Except.ok s1 => runNavChecked dom s1 rest
      | Except.error err => Except.error err

/-- Counterexample to claim C6: with the toggle and the menu present but
the navigation container absent, setupMobileNavigation proceeds (its guard
passes), yet opening the menu and then clicking outside faults: the
outside-click handler dereferences the unchecked navigation container.  So
not every feature checks every element it dereferences, and a missing
element can cause a runtime fault after setup. -/
theorem setup_guard_counterexample :
    navGuardPasses { navToggle := true, navMenu := true, navigation := false } = true
    ∧ runNavChecked { navToggle := true, navMenu := true, navigation := false }
        (initNavState true)
        [NavEvent.toggleActivate, NavEvent.documentClick false]
        = Except.error JsError.typeError := by
  constructor
  · rfl
  · rfl

lemma navStepChecked_ok (dom : NavDom) (s : NavState) (e : NavEvent)
    (h : dom.navigation = true ∨ navGuardPasses dom = false) :
    ∃ s1, navStepChecked dom s e = Except.ok s1 := by
  cases hg : navGuardPasses dom with
  | false => exact ⟨s, by simp [navStepChecked, hg]⟩
  | true =>
      have hnav : dom.navigation = true := by
        rcases h with h | h
        · exact h
        · rw [hg] at h
          exact Bool.noConfusion h
      cases e with
      | toggleActivate => exact ⟨toggleMobileMenu s, by simp [navStepChecked, hg]⟩
      | documentClick inside =>
          cases hm : s.isMenuOpen with
          | false => exact ⟨s, by simp [navStepChecked, hg, hm]⟩
          | true =>
              exact ⟨if !inside then closeMobileMenu s else s,
                by simp [navStepChecked, hg, hm, hnav]⟩
      | keydown key =>
          cases hc : (key == "Escape" && s.isMenuOpen) with
          | true =>
              exact ⟨{ closeMobileMenu s with
                         focusTarget := some NavFocus.toggleControl },
                by simp [navStepChecked, hg, hc]⟩
          | false => exact ⟨s, by simp [navStepChecked, hg, hc]⟩
      | resize width =>
          cases hc : (decide (768 ≤ width) && s.isMenuOpen) with
          | true => exact ⟨closeMobileMenu s, by simp [navStepChecked, hg, hc]⟩
          | false => exact ⟨s, by simp [navStepChecked, hg, hc]⟩

lemma runNavChecked_ok (dom : NavDom)
    (h : dom.navigation = true ∨ navGuardPasses dom = false) :
    ∀ (evs : List NavEvent) (s : NavState),
      ∃ s2, runNavChecked dom s evs = Except.ok s2 := by
  intro evs
  induction evs with
  | nil => exact fun s => ⟨s, rfl⟩
  | cons e rest ih =>
      intro s
      obtain ⟨s1, hs1⟩ := navStepChecked_ok dom s e h
      obtain ⟨s2, hs2⟩ := ih s1
      exact ⟨s2, by simp only [runNavChecked, hs1, hs2]⟩

/-- Claim C6 (amended): every feature setup checks its primary elements and
no-ops the feature when they are absent, but the mobile navigation guard
covers only the toggle and the menu, not the navigation container its
outside-click handler dereferences.  Whenever the container is present or
the guard fails, no sequence of navigation events faults. -/
theorem navFeature_no_fault (dom : NavDom) (hasNavLink : Bool)
    (h : dom.navigation = true ∨ navGuardPasses dom = false)
    (evs : List NavEvent) :
    ∃ s, runNavChecked dom (initNavState hasNavLink) evs = Except.ok s :=
  runNavChecked_ok dom h evs (initNavState hasNavLink)

/-- Closed instance of the amended C6 theorem: with every element present,
an open followed by an outside click runs without fault. -/
theorem navFeature_no_fault_witness :
    (({ navToggle := true, navMenu := true, navigation := true } : NavDom).navigation
        = true
      ∨ navGuardPasses { navToggle := true, navMenu := true, navigation := true }
        = false)
    ∧ ∃ s, runNavChecked { navToggle := true, navMenu := true, navigation := true }
        (initNavState true)
        [NavEvent.toggleActivate, NavEvent.documentClick false] = Except.ok s :=
  ⟨Or.inl rfl,
   navFeature_no_fault { navToggle := true, navMenu := true, navigation := true }
     true (Or.inl rfl) [NavEvent.toggleActivate, NavEvent.documentClick false]⟩

end LauraSite
